import Mathlib

/-!
Verification of the quiz answer-scoring engine and the question visibility
projection of the `verto` backend.

The definitions below are a shallow embedding of
`src/modules/question/question.service.ts` (`submitQuizAnswers`,
`getQuizQuestions`) together with the data shapes induced by the Prisma
models and the zod validator `submitAnswersSchema`.

Conventions of the embedding:
* JavaScript string operations `trim`/`toLowerCase` are modelled by
  `jsTrim`/`jsToLower` below, operating on the string's character list
  (strip leading and trailing whitespace; lowercase each character).
* A JavaScript `Set` built from a list is modelled via `List.dedup`
  (the set's `size` is the number of distinct elements; `has` is list
  membership).
* The `Map` built from `questions.map(q => [q.id, q])` overwrites earlier
  entries on key collision, so `get` returns the last matching question;
  we model it by searching the reversed list.
* `Math.round((correctAnswers / questions.length) * 100)` is modelled as
  exact rational rounding, half toward `+∞` (for the nonnegative values
  arising here this is round-half-away-from-zero), which for naturals
  `c`, `t` is `(200 * c + t) / (2 * t)` in natural-number division.
* Thrown `AppError`s are modelled with `Except`.
-/

namespace Verto

/-- Question type enum: `SINGLE_CHOICE`, `MULTIPLE_CHOICE`, `TEXT`. -/
inductive QuestionType where
  | SINGLE_CHOICE
  | MULTIPLE_CHOICE
  | TEXT
deriving DecidableEq, Repr

/-- The Prisma `Option` model (an answer choice of a question). -/
structure QOption where
  id : String
  text : String
  isCorrect : Bool
deriving DecidableEq, Repr

/-- The Prisma `Question` model, fetched with `include: { options: true }`. -/
structure Question where
  id : String
  text : String
  type : QuestionType
  options : List QOption
deriving DecidableEq, Repr

/-- One element of `answersData.answers` as produced by
`submitAnswersSchema`: `selectedOptionIds` and `textAnswer` are both
optional fields. -/
structure SubmittedAnswer where
  questionId : String
  selectedOptionIds : Option (List String)
  textAnswer : Option String
deriving DecidableEq, Repr

/-- The `correctAnswer` field of a per-answer result has TypeScript type
`string | string[]`. -/
inductive CorrectAnswer where
  | str (s : String)
  | list (l : List String)
deriving DecidableEq, Repr

/-- One element of the `results` array built by `submitQuizAnswers`. -/
structure AnswerResult where
  questionId : String
  isCorrect : Bool
  correctAnswer : CorrectAnswer
deriving DecidableEq, Repr

/-- The aggregate score object returned by `submitQuizAnswers`. -/
structure ScoreResult where
  score : Nat
  total : Nat
  percentage : Nat
  results : List AnswerResult
deriving DecidableEq, Repr

/-- The errors `submitQuizAnswers` can throw after the quiz itself has been
found: `No questions found for this quiz` and
`Question with ID ... not found in this quiz` (both `BAD_REQUEST`). -/
inductive ScoringError where
  | noQuestions
  | questionNotFound (questionId : String)
deriving DecidableEq, Repr

/-- JavaScript `String.prototype.trim`: remove leading and trailing
whitespace (internal whitespace is untouched). -/
def jsTrim (s : String) : String :=
  ⟨((s.data.dropWhile Char.isWhitespace).reverse.dropWhile Char.isWhitespace).reverse⟩

/-- JavaScript `String.prototype.toLowerCase`, restricted to the simple
per-character lowercase mapping. -/
def jsToLower (s : String) : String :=
  ⟨s.data.map Char.toLower⟩

/-- Lookup in `questionMap = new Map(questions.map(q => [q.id, q]))`:
later entries overwrite earlier ones, so the last question with the given
id wins. -/
def questionMapGet (questions : List Question) (qid : String) : Option Question :=
  questions.reverse.find? (fun q => q.id == qid)

/-- The truthiness test `answer.textAnswer` of JavaScript: an absent field
and the empty string are both falsy. -/
def textTruthy : Option String → Bool
  | none => false
  | some t => t != ""

/-- Models `answer.selectedOptionIds || []` (an empty array is truthy in
JavaScript, so only an absent field is replaced). -/
def selectedIdsOf (a : SubmittedAnswer) : List String :=
  a.selectedOptionIds.getD []

/-- Scoring of a single resolved answer: the body of the `for` loop of
`submitQuizAnswers` after the question lookup, returning the pair
`(isCorrect, correctAnswer)`.  Both are initialised to `false` / `''` and
only overwritten where the source assigns them. -/
def scoreOne (question : Question) (answer : SubmittedAnswer) : Bool × CorrectAnswer :=
  match question.type with
  | QuestionType.TEXT =>
    match question.options.find? (fun opt => opt.isCorrect), answer.textAnswer with
    | some correctOption, some txt =>
      if txt != "" then
        (jsToLower (jsTrim txt) == jsToLower (jsTrim correctOption.text),
         CorrectAnswer.str correctOption.text)
      else (false, CorrectAnswer.str "")
    | _, _ => (false, CorrectAnswer.str "")
  | QuestionType.SINGLE_CHOICE =>
    let correctOptionIds := (question.options.filter (fun opt => opt.isCorrect)).map (fun opt => opt.id)
    let selectedIds := selectedIdsOf answer
    (decide (selectedIds.length = 1) && decide (correctOptionIds.length = 1)
       && (selectedIds.head? == correctOptionIds.head?),
     CorrectAnswer.str
       (((question.options.find? (fun opt => opt.isCorrect)).map (fun opt => opt.text)).getD ""))
  | QuestionType.MULTIPLE_CHOICE =>
    let correctOptionIds := (question.options.filter (fun opt => opt.isCorrect)).map (fun opt => opt.id)
    let selectedIds := selectedIdsOf answer
    (decide (selectedIds.dedup.length = correctOptionIds.dedup.length)
       && selectedIds.dedup.all (fun id => correctOptionIds.contains id),
     CorrectAnswer.list
       ((question.options.filter (fun opt => opt.isCorrect)).map (fun opt => opt.text)))

/-- The scoring loop of `submitQuizAnswers`: processes the submitted
answers in order, throwing on the first answer whose `questionId` is not in
the question map, otherwise accumulating the count of correct answers and
the per-answer results (in submission order). -/
def processAnswers (questions : List Question) :
    List SubmittedAnswer → Except ScoringError (Nat × List AnswerResult)
  | [] => Except.ok (0, [])
  | answer :: rest =>
    match questionMapGet questions answer.questionId with
    | none => Except.error (ScoringError.questionNotFound answer.questionId)
    | some question =>
      let r := scoreOne question answer
      match processAnswers questions rest with
      | Except.error e => Except.error e
      | Except.ok (n, rs) =>
        Except.ok ((if r.fst then 1 else 0) + n,
          { questionId := answer.questionId, isCorrect := r.fst,
            correctAnswer := r.snd } :: rs)

/-- Exact-arithmetic model of
`Math.round((correctAnswers / questions.length) * 100)`: the integer
nearest to `100 * c / t`, halves rounded up (equivalently, away from zero
on these nonnegative inputs). -/
def jsRoundPercentage (c t : Nat) : Nat :=
  (200 * c + t) / (2 * t)

/-- Core of `submitQuizAnswers` after the quiz-existence check and the
fetch of the quiz's questions: fails when the quiz has no questions,
scores each submitted answer (failing on an unknown question reference),
and returns the aggregate. -/
def submitQuizAnswers (questions : List Question) (answers : List SubmittedAnswer) :
    Except ScoringError ScoreResult :=
  if questions.length = 0 then Except.error ScoringError.noQuestions
  else
    match processAnswers questions answers with
    | Except.error e => Except.error e
    | Except.ok (correctAnswers, results) =>
      Except.ok
        { score := correctAnswers
          total := questions.length
          percentage := jsRoundPercentage correctAnswers questions.length
          results := results }

/-- An option as serialized by the learner view of `getQuizQuestions`
(`select: { id: true, text: true }` — no `isCorrect` field). -/
structure LearnerOptionView where
  id : String
  text : String
deriving DecidableEq, Repr

/-- A question as serialized by the learner view of `getQuizQuestions`. -/
structure LearnerQuestionView where
  id : String
  text : String
  type : QuestionType
  options : List LearnerOptionView
deriving DecidableEq, Repr

/-- The projection applied by `getQuizQuestions` to the quiz's questions
(the Prisma `select` clause restricted to `id`, `text`, `type`, and for
each option `id` and `text` only). -/
def getQuizQuestions (questions : List Question) : List LearnerQuestionView :=
  questions.map (fun q =>
    { id := q.id, text := q.text, type := q.type,
      options := q.options.map (fun o => { id := o.id, text := o.text }) })

/-- The per-type stored-correctness invariants of the data model (enforced
by `createQuestionSchema` at creation/update time; the scoring engine may
encounter data violating them). -/
def typeInvariant (q : Question) : Prop :=
  match q.type with
  | QuestionType.SINGLE_CHOICE => (q.options.filter (fun o => o.isCorrect)).length = 1
  | QuestionType.MULTIPLE_CHOICE => 1 ≤ (q.options.filter (fun o => o.isCorrect)).length
  | QuestionType.TEXT => (q.options.find? (fun o => o.isCorrect)).isSome = true

/-- Concrete TEXT question whose canonical answer is `Paris`. -/
def exTextQuestion : Question :=
  { id := "q1", text := "Capital of France?", type := QuestionType.TEXT,
    options := [{ id := "o1", text := "Paris", isCorrect := true }] }

/-- Concrete SINGLE_CHOICE question with one correct option `x`. -/
def exSingleQuestion : Question :=
  { id := "s1", text := "2 + 2?", type := QuestionType.SINGLE_CHOICE,
    options := [{ id := "x", text := "X", isCorrect := true },
                { id := "y", text := "Y", isCorrect := false }] }

/-- Concrete MULTIPLE_CHOICE question with correct set `{a, b, c}`. -/
def exMultiQuestion : Question :=
  { id := "m2", text := "frameworks", type := QuestionType.MULTIPLE_CHOICE,
    options := [{ id := "a", text := "React", isCorrect := true },
                { id := "b", text := "Vue", isCorrect := true },
                { id := "c", text := "Angular", isCorrect := true },
                { id := "d", text := "jQuery", isCorrect := false }] }

/-- Malformed SINGLE_CHOICE question: zero correct options. -/
def exMalformedSingleQ : Question :=
  { id := "s0", text := "broken", type := QuestionType.SINGLE_CHOICE,
    options := [{ id := "u", text := "U", isCorrect := false }] }

/-- Malformed MULTIPLE_CHOICE question: zero correct options. -/
def exZeroCorrectMulti : Question :=
  { id := "m0", text := "pick", type := QuestionType.MULTIPLE_CHOICE,
    options := [{ id := "z", text := "Z", isCorrect := false }] }

/-- Concrete answer selecting the correct option of `exSingleQuestion`. -/
def exAnswerX : SubmittedAnswer :=
  { questionId := "s1", selectedOptionIds := some ["x"], textAnswer := none }

/-- A three-question quiz used for aggregate-scoring witnesses. -/
def exQuiz : List Question := [exSingleQuestion, exMultiQuestion, exTextQuestion]

/-- The scoring result of submitting only `exAnswerX` against `exQuiz`. -/
def exQuizResult : ScoreResult :=
  { score := 1, total := 3, percentage := 33,
    results := [{ questionId := "s1", isCorrect := true, correctAnswer := CorrectAnswer.str "X" }] }

/-- The scoring result of submitting `exAnswerX` twice against a
one-question quiz: the score exceeds the total. -/
def exDupResult : ScoreResult :=
  { score := 2, total := 1, percentage := 200,
    results := [{ questionId := "s1", isCorrect := true, correctAnswer := CorrectAnswer.str "X" },
                { questionId := "s1", isCorrect := true, correctAnswer := CorrectAnswer.str "X" }] }

/-- Helper: a `processAnswers` success accumulates exactly the number of
result entries marked correct. -/
lemma processAnswers_ok_score_eq_correct_count (questions : List Question)
    (answers : List SubmittedAnswer) (n : Nat) (rs : List AnswerResult)
    (h : processAnswers questions answers = Except.ok (n, rs)) :
    n = (rs.filter (fun res => res.isCorrect)).length := by
  induction answers generalizing n rs with
  | nil =>
    simp [processAnswers] at h
    rcases h with ⟨hn, hrs⟩
    subst hn; subst hrs
    rfl
  | cons b rest ih =>
    rcases hb : questionMapGet questions b.questionId with _ | qb
    · simp [processAnswers, hb] at h
    · rcases hrest : processAnswers questions rest with e | p
      · simp [processAnswers, hb, hrest] at h
      · rcases p with ⟨m, rs'⟩
        have hm := ih m rs' hrest
        simp [processAnswers, hb, hrest] at h
        rcases h with ⟨hn, hrs⟩
        subst hn
        rw [← hrs]
        rcases hcor : (scoreOne qb b).fst with _ | _
        · simp [List.filter, hcor, hm]
        · simp [List.filter, hcor, hm]
          omega

/-- Helper: the rounded percentage is within half a point of the exact
ratio, with the half boundary rounded up. -/
lemma jsRoundPercentage_bounds (c t : Nat) (ht : t ≠ 0) :
    (2 * (jsRoundPercentage c t : Int) - 1) * t ≤ 200 * c
    ∧ 200 * (c : Int) < (2 * (jsRoundPercentage c t : Int) + 1) * t := by
  unfold jsRoundPercentage
  have hdm := Nat.div_add_mod (200 * c + t) (2 * t)
  have hmod : (200 * c + t) % (2 * t) < 2 * t := Nat.mod_lt _ (by omega)
  generalize hq : (200 * c + t) / (2 * t) = p at *
  generalize hr : (200 * c + t) % (2 * t) = m at *
  have hdmZ : 2 * (t : Int) * p + m = 200 * c + t := by exact_mod_cast hdm
  have hmZ : (m : Int) < 2 * t := by exact_mod_cast hmod
  have hm0 : (0 : Int) ≤ m := Int.natCast_nonneg m
  constructor
  · linarith [hdmZ, hm0]
  · linarith [hdmZ, hmZ]

/-- Helper: a submitted answer whose question is missing from the map
forces `processAnswers` to return an unknown-question error. -/
lemma processAnswers_error_of_unresolved (questions : List Question)
    (answers : List SubmittedAnswer) (a : SubmittedAnswer) (ha : a ∈ answers)
    (hmiss : questionMapGet questions a.questionId = none) :
    ∃ qid, processAnswers questions answers =
      Except.error (ScoringError.questionNotFound qid) := by
  induction answers with
  | nil => cases ha
  | cons b rest ih =>
    rcases List.mem_cons.mp ha with hab | harest
    · subst hab
      refine ⟨a.questionId, ?_⟩
      simp [processAnswers, hmiss]
    · rcases hb : questionMapGet questions b.questionId with _ | qb
      · exact ⟨b.questionId, by simp [processAnswers, hb]⟩
      · rcases ih harest with ⟨qid, hqid⟩
        exact ⟨qid, by simp [processAnswers, hb, hqid]⟩

/-- Helper: the correct count never exceeds the number of submitted
answers. -/
lemma processAnswers_ok_count_le (questions : List Question)
    (answers : List SubmittedAnswer) (n : Nat) (rs : List AnswerResult)
    (h : processAnswers questions answers = Except.ok (n, rs)) :
    n ≤ answers.length := by
  induction answers generalizing n rs with
  | nil =>
    simp [processAnswers] at h
    omega
  | cons b rest ih =>
    rcases hb : questionMapGet questions b.questionId with _ | qb
    · simp [processAnswers, hb] at h
    · rcases hrest : processAnswers questions rest with e | p
      · simp [processAnswers, hb, hrest] at h
      · rcases p with ⟨m, rs'⟩
        have hm := ih m rs' hrest
        simp [processAnswers, hb, hrest] at h
        rcases h with ⟨hn, _⟩
        subst hn
        rcases (scoreOne qb b).fst with _ | _ <;> simp <;> omega

/-- Helper: on a successful run every submitted answer's `questionId`
occurs among the quiz's question ids. -/
lemma processAnswers_ok_resolves (questions : List Question)
    (answers : List SubmittedAnswer) (n : Nat) (rs : List AnswerResult)
    (h : processAnswers questions answers = Except.ok (n, rs)) :
    ∀ a ∈ answers, a.questionId ∈ questions.map (fun q => q.id) := by
  induction answers generalizing n rs with
  | nil => intro a ha; cases ha
  | cons b rest ih =>
    rcases hb : questionMapGet questions b.questionId with _ | qb
    · simp [processAnswers, hb] at h
    · rcases hrest : processAnswers questions rest with e | p
      · simp [processAnswers, hb, hrest] at h
      · rcases p with ⟨m, rs'⟩
        intro a ha
        rcases List.mem_cons.mp ha with hab | harest
        · subst hab
          unfold questionMapGet at hb
          have hqmem : qb ∈ questions.reverse := List.mem_of_find?_eq_some hb
          have hqid : (qb.id == a.questionId) = true := by
            have hp := List.find?_some hb
            simpa using hp
          rw [List.mem_reverse] at hqmem
          rw [List.mem_map]
          exact ⟨qb, hqmem, by simpa using hqid⟩
        · exact ih m rs' hrest a harest

/-- Helper: the scoring loop can only fail with an unknown-question
error. -/
lemma processAnswers_error_shape (questions : List Question)
    (answers : List SubmittedAnswer) (e : ScoringError)
    (h : processAnswers questions answers = Except.error e) :
    ∃ qid, e = ScoringError.questionNotFound qid := by
  induction answers generalizing e with
  | nil => simp [processAnswers] at h
  | cons b rest ih =>
    rcases hb : questionMapGet questions b.questionId with _ | qb
    · simp [processAnswers, hb] at h
      exact ⟨b.questionId, h.symm⟩
    · rcases hrest : processAnswers questions rest with e' | p
      · simp [processAnswers, hb, hrest] at h
        subst h
        exact ih e' hrest
      · rcases p with ⟨m, rs'⟩
        simp [processAnswers, hb, hrest] at h

/-- Claim C1: a MULTIPLE_CHOICE answer is marked correct iff the set of
selected option identifiers (duplicates collapsed) is exactly the set of
the question's correct-option identifiers — same size, same members,
order irrelevant; any strict subset or superset is incorrect. -/
theorem multipleChoice_scored_iff_set_equality (q : Question) (a : SubmittedAnswer)
    (h : q.type = QuestionType.MULTIPLE_CHOICE) :
    (scoreOne q a).fst = true ↔
      (selectedIdsOf a).toFinset =
        ((q.options.filter (fun o => o.isCorrect)).map (fun o => o.id)).toFinset := by
  rcases q with ⟨qid, qtext, qty, qopts⟩
  subst h
  simp only [scoreOne, Bool.and_eq_true, decide_eq_true_eq, List.all_eq_true,
    List.elem_iff, decide_eq_true_eq] at *
  set sel := selectedIdsOf a with hsel
  set cor := (qopts.filter (fun o => o.isCorrect)).map (fun o => o.id) with hcor
  constructor
  · rintro ⟨hlen, hsub⟩
    apply Finset.eq_of_subset_of_card_le
    · intro x hx
      rw [List.mem_toFinset] at hx ⊢
      exact hsub x (List.mem_dedup.mpr hx)
    · rw [List.card_toFinset, List.card_toFinset, hlen]
  · intro heq
    constructor
    · rw [← List.card_toFinset, ← List.card_toFinset, heq]
    · intro x hx
      have hx' : x ∈ sel := List.mem_dedup.mp hx
      have hmem : x ∈ cor.toFinset := heq ▸ List.mem_toFinset.mpr hx'
      exact List.mem_toFinset.mp hmem

/-- Witness for claim C1: correct set `{a, b, c}` submitted as
`[c, b, a]` scores correct. -/
theorem multipleChoice_set_equality_witness :
    (scoreOne exMultiQuestion
      { questionId := "m2", selectedOptionIds := some ["c", "b", "a"], textAnswer := none }).fst = true :=
  (multipleChoice_scored_iff_set_equality exMultiQuestion
    { questionId := "m2", selectedOptionIds := some ["c", "b", "a"], textAnswer := none } rfl).mpr
    (by decide)

/-- Claim C2: a TEXT answer with no (nonempty) text, or whose question has
no correct-answer option, is marked incorrect; otherwise it is correct iff
the submitted text equals the stored correct text after trimming
leading/trailing whitespace and lowercasing both sides. -/
theorem text_scored_iff_normalized_equality (q : Question) (a : SubmittedAnswer)
    (h : q.type = QuestionType.TEXT) :
    ((textTruthy a.textAnswer = false ∨ ∀ o ∈ q.options, o.isCorrect = false) →
        (scoreOne q a).fst = false)
    ∧ (∀ txt co, a.textAnswer = some txt → txt ≠ "" →
        q.options.find? (fun o => o.isCorrect) = some co →
        ((scoreOne q a).fst = true ↔ jsToLower (jsTrim txt) = jsToLower (jsTrim co.text))) := by
  rcases q with ⟨qid, qtext, qty, qopts⟩
  subst h
  constructor
  · intro hbad
    rcases hbad with hbad | hbad
    · simp only [scoreOne]
      rcases hfind : qopts.find? (fun o => o.isCorrect) with _ | co
      · simp [hfind]
      · rcases hta : a.textAnswer with _ | txt
        · simp [hfind, hta]
        · rw [hta] at hbad
          simp only [textTruthy] at hbad
          rw [bne_eq_false_iff_eq] at hbad
          subst hbad
          simp [hfind, hta]
    · have hfind : qopts.find? (fun o => o.isCorrect) = none := by
        rw [List.find?_eq_none]
        intro o ho
        simp [hbad o ho]
      simp [scoreOne, hfind]
  · intro txt co hta htxt hfind
    simp only [scoreOne, hfind, hta]
    rw [if_pos (by simpa using htxt)]
    simp

/-- Witness for claim C2: submission ` paris ` scores correct against the
canonical answer `Paris`. -/
theorem text_scored_witness :
    (scoreOne exTextQuestion
      { questionId := "q1", selectedOptionIds := none, textAnswer := some " paris " }).fst = true := by
  have h := text_scored_iff_normalized_equality exTextQuestion
    { questionId := "q1", selectedOptionIds := none, textAnswer := some " paris " } rfl
  exact (h.2 " paris " { id := "o1", text := "Paris", isCorrect := true } rfl (by decide) rfl).mpr
    (by decide)

/-- Claim C3: a SINGLE_CHOICE answer is marked correct iff exactly one
option identifier is selected, the question has exactly one correct
option, and the selected identifier is that option's; with a number of
correct options different from one the verdict is always incorrect (the
scoring function is total, so no exception is possible), and
`correctAnswer` is the first correct option's text, defaulting to the
empty string. -/
theorem singleChoice_scored_iff_unique_match (q : Question) (a : SubmittedAnswer)
    (h : q.type = QuestionType.SINGLE_CHOICE) :
    ((scoreOne q a).fst = true ↔
      ∃ co, q.options.filter (fun o => o.isCorrect) = [co] ∧ selectedIdsOf a = [co.id])
    ∧ ((q.options.filter (fun o => o.isCorrect)).length ≠ 1 → (scoreOne q a).fst = false)
    ∧ (scoreOne q a).snd =
        CorrectAnswer.str (((q.options.find? (fun o => o.isCorrect)).map (fun o => o.text)).getD "") := by
  rcases q with ⟨qid, qtext, qty, qopts⟩
  subst h
  dsimp only
  refine ⟨?_, ?_, rfl⟩
  · simp only [scoreOne, Bool.and_eq_true, decide_eq_true_eq]
    constructor
    · rintro ⟨⟨hsel, hcor⟩, hhead⟩
      rw [List.length_map] at hcor
      rcases List.length_eq_one.mp hcor with ⟨co, hco⟩
      rcases List.length_eq_one.mp hsel with ⟨s, hs⟩
      rw [hs, hco] at hhead
      have hseq : s = co.id := by simpa using hhead
      exact ⟨co, hco, by rw [hs, hseq]⟩
    · rintro ⟨co, hco, hsel⟩
      rw [hco, hsel]
      simp
  · intro hne
    simp [scoreOne, List.length_map, hne]

/-- Witness for claim C3: submitting the unique correct option of a
well-formed SINGLE_CHOICE question scores correct. -/
theorem single_choice_witness :
    (scoreOne exSingleQuestion exAnswerX).fst = true := by
  have h := singleChoice_scored_iff_unique_match exSingleQuestion exAnswerX rfl
  exact h.1.mpr ⟨{ id := "x", text := "X", isCorrect := true }, rfl, rfl⟩

/-- Claim C4: if any submitted answer references a question that is not in
the (nonempty) target quiz, the whole scoring call fails with an
unknown-question error — because the call returns an error, no partial
per-answer results are returned. -/
theorem unknown_reference_aborts_whole_call (questions : List Question)
    (answers : List SubmittedAnswer) (a : SubmittedAnswer)
    (hne : questions ≠ []) (ha : a ∈ answers)
    (hmiss : questionMapGet questions a.questionId = none) :
    ∃ qid, submitQuizAnswers questions answers =
      Except.error (ScoringError.questionNotFound qid) := by
  rcases processAnswers_error_of_unresolved questions answers a ha hmiss with ⟨qid, hq⟩
  refine ⟨qid, ?_⟩
  have hlen : questions.length ≠ 0 := by
    intro h0
    exact hne (List.length_eq_zero.mp h0)
  simp [submitQuizAnswers, hlen, hq]

/-- Witness for claim C4: an answer naming the unknown question `zzz`
aborts a one-question quiz submission. -/
theorem unknown_reference_witness :
    ∃ qid, submitQuizAnswers [exSingleQuestion]
      [{ questionId := "zzz", selectedOptionIds := some ["x"], textAnswer := none }] =
      Except.error (ScoringError.questionNotFound qid) :=
  unknown_reference_aborts_whole_call [exSingleQuestion] _
    { questionId := "zzz", selectedOptionIds := some ["x"], textAnswer := none }
    (by simp) (List.mem_singleton.mpr rfl) (by rfl)

/-- Claim C5: every successful scoring call returns `total` equal to the
quiz's question count, `score` equal to the number of submitted answers
marked correct, and `percentage` equal to `100 * score / total` rounded to
the nearest integer with halves rounded away from zero (stated as the pair
of strict half-interval bounds `percentage - 1/2 ≤ 100 * score / total <
percentage + 1/2` in exact integer arithmetic). -/
theorem aggregate_score_total_percentage (questions : List Question)
    (answers : List SubmittedAnswer) (r : ScoreResult)
    (h : submitQuizAnswers questions answers = Except.ok r) :
    r.total = questions.length
    ∧ r.score = (r.results.filter (fun res => res.isCorrect)).length
    ∧ (2 * (r.percentage : Int) - 1) * (r.total : Int) ≤ 200 * (r.score : Int)
    ∧ 200 * (r.score : Int) < (2 * (r.percentage : Int) + 1) * (r.total : Int) := by
  unfold submitQuizAnswers at h
  by_cases hlen : questions.length = 0
  · simp [hlen] at h
  · rw [if_neg hlen] at h
    rcases hpa : processAnswers questions answers with e | p
    · rw [hpa] at h
      cases h
    · rcases p with ⟨n, rs⟩
      rw [hpa] at h
      injection h with h
      subst h
      have hb := jsRoundPercentage_bounds n questions.length hlen
      exact ⟨rfl, processAnswers_ok_score_eq_correct_count _ _ _ _ hpa, hb.1, hb.2⟩

/-- Witness for claim C5: a three-question quiz with exactly one correct
submitted answer yields `score = 1`, `total = 3`, `percentage = 33`. -/
theorem aggregate_witness :
    exQuizResult.total = exQuiz.length
    ∧ exQuizResult.score = (exQuizResult.results.filter (fun res => res.isCorrect)).length
    ∧ (2 * (exQuizResult.percentage : Int) - 1) * (exQuizResult.total : Int)
        ≤ 200 * (exQuizResult.score : Int)
    ∧ 200 * (exQuizResult.score : Int)
        < (2 * (exQuizResult.percentage : Int) + 1) * (exQuizResult.total : Int) :=
  aggregate_score_total_percentage exQuiz [exAnswerX] exQuizResult (by rfl)

/-- Claim C6: the learner view serializes every option as identifier and
text only; in particular the view is invariant under arbitrary changes of
the stored `isCorrect` flags, so correctness information is never
revealed. -/
theorem learner_view_never_reveals_isCorrect (questions : List Question)
    (f : QOption → Bool) :
    getQuizQuestions (questions.map (fun q =>
        { q with options := q.options.map (fun o => { o with isCorrect := f o }) }))
      = getQuizQuestions questions
    ∧ (getQuizQuestions questions).map (fun v => v.options)
      = questions.map (fun q => q.options.map (fun o => ⟨o.id, o.text⟩)) := by
  unfold getQuizQuestions
  constructor
  · simp [List.map_map, Function.comp]
  · simp [List.map_map, Function.comp]

/-- Counterexample to claim C7 as stated: submitting the same correct
answer twice against a one-question quiz yields `score = 2 > 1 = total`. -/
theorem score_exceeds_total_counterexample :
    submitQuizAnswers [exSingleQuestion] [exAnswerX, exAnswerX] = Except.ok exDupResult
    ∧ ¬ (exDupResult.score ≤ exDupResult.total) := by
  refine ⟨by rfl, by decide⟩

/-- Claim C7 amended: for every successful scoring call in which the
submitted answers reference pairwise-distinct questions, `0 ≤ score ≤
total` holds (in `Nat`, `0 ≤ score` is trivial); with duplicate references
the bound can fail. -/
theorem score_le_total_of_distinct_references (questions : List Question)
    (answers : List SubmittedAnswer) (r : ScoreResult)
    (h : submitQuizAnswers questions answers = Except.ok r)
    (hnodup : (answers.map (fun a => a.questionId)).Nodup) :
    r.score ≤ r.total := by
  unfold submitQuizAnswers at h
  by_cases hlen : questions.length = 0
  · simp [hlen] at h
  · rw [if_neg hlen] at h
    rcases hpa : processAnswers questions answers with e | p
    · rw [hpa] at h
      cases h
    · rcases p with ⟨n, rs⟩
      rw [hpa] at h
      injection h with h
      subst h
      show n ≤ questions.length
      have h1 : n ≤ answers.length := processAnswers_ok_count_le _ _ _ _ hpa
      have h2 : ∀ a ∈ answers, a.questionId ∈ questions.map (fun q => q.id) :=
        processAnswers_ok_resolves _ _ _ _ hpa
      have hsub : (answers.map (fun a => a.questionId)).toFinset ⊆
          (questions.map (fun q => q.id)).toFinset := by
        intro x hx
        rw [List.mem_toFinset] at hx ⊢
        rcases List.mem_map.mp hx with ⟨a, ha, hax⟩
        exact hax ▸ h2 a ha
      have h3 : answers.length ≤ questions.length := by
        calc answers.length = (answers.map (fun a => a.questionId)).length :=
              (List.length_map _ _).symm
          _ = (answers.map (fun a => a.questionId)).toFinset.card :=
              (List.toFinset_card_of_nodup hnodup).symm
          _ ≤ (questions.map (fun q => q.id)).toFinset.card := Finset.card_le_card hsub
          _ ≤ (questions.map (fun q => q.id)).length := List.toFinset_card_le _
          _ = questions.length := List.length_map _ _
      omega

/-- Witness for the amended claim C7: a successful call with distinct
question references satisfies the score bound. -/
theorem score_le_total_witness : exQuizResult.score ≤ exQuizResult.total :=
  score_le_total_of_distinct_references exQuiz [exAnswerX] exQuizResult (by rfl) (by decide)

/-- Counterexample to claim C8 as stated: a MULTIPLE_CHOICE question whose
stored data violates its invariant (zero correct options), scored against
an answer with no selected option identifiers, is marked correct — not
incorrect. -/
theorem malformed_data_yields_correct_counterexample :
    ¬ typeInvariant exZeroCorrectMulti
    ∧ (scoreOne exZeroCorrectMulti
        { questionId := "m0", selectedOptionIds := none, textAnswer := some "hi" }).fst = true := by
  constructor
  · simp [typeInvariant, exZeroCorrectMulti]
  · rfl

/-- Claim C8 amended: scoring a question with violated stored-correctness
invariants marks the answer incorrect — except that a MULTIPLE_CHOICE
question with zero correct options scored against an empty selection is
marked correct — and malformed stored data never causes the call to fail:
the only errors a scoring call can produce are the empty-quiz error and
the unknown-question error. -/
theorem malformed_data_degrades_gracefully :
    (∀ q a, ¬ typeInvariant q →
      ((scoreOne q a).fst = true ↔
        q.type = QuestionType.MULTIPLE_CHOICE ∧ selectedIdsOf a = []
          ∧ q.options.filter (fun o => o.isCorrect) = []))
    ∧ (∀ questions answers e, submitQuizAnswers questions answers = Except.error e →
        e = ScoringError.noQuestions ∨ ∃ qid, e = ScoringError.questionNotFound qid) := by
  constructor
  · intro q a hviol
    rcases q with ⟨qid, qtext, qty, qopts⟩
    cases qty with
    | SINGLE_CHOICE =>
      simp only [typeInvariant] at hviol
      simp [scoreOne, List.length_map, hviol]
    | MULTIPLE_CHOICE =>
      simp only [typeInvariant] at hviol
      have hnil : qopts.filter (fun o => o.isCorrect) = [] :=
        List.length_eq_zero.mp (by omega)
      constructor
      · intro hc
        simp [scoreOne, hnil] at hc
        exact ⟨rfl, hc.1, hnil⟩
      · rintro ⟨_, hsel, _⟩
        simp [scoreOne, hnil, hsel]
    | TEXT =>
      simp only [typeInvariant, Option.isSome_iff_exists] at hviol
      push_neg at hviol
      have hfind : qopts.find? (fun o => o.isCorrect) = none := by
        rcases hf : qopts.find? (fun o => o.isCorrect) with _ | co
        · exact hf
        · exact absurd hf (hviol co)
      simp [scoreOne, hfind]
  · intro questions answers e h
    unfold submitQuizAnswers at h
    by_cases hlen : questions.length = 0
    · rw [if_pos hlen] at h
      injection h with h
      exact Or.inl h.symm
    · rw [if_neg hlen] at h
      rcases hpa : processAnswers questions answers with e' | p
      · rw [hpa] at h
        injection h with h
        exact Or.inr (h ▸ processAnswers_error_shape _ _ _ hpa)
      · rcases p with ⟨n, rs⟩
        rw [hpa] at h
        cases h

/-- Witness for the amended claim C8: a malformed SINGLE_CHOICE question
(zero correct options) scores incorrect without error. -/
theorem malformed_degrades_witness :
    (scoreOne exMalformedSingleQ
      { questionId := "s0", selectedOptionIds := some ["u"], textAnswer := none }).fst = false := by
  have h := malformed_data_degrades_gracefully.1 exMalformedSingleQ
    { questionId := "s0", selectedOptionIds := some ["u"], textAnswer := none }
    (by simp [typeInvariant, exMalformedSingleQ])
  rw [← Bool.not_eq_true, h]
  simp [exMalformedSingleQ]

/-- Counterexample to claim C9 as stated: a TEXT question with canonical
answer `Paris`, scored against an answer that supplies selected option
identifiers instead of text, records the empty string — not the canonical
text — in `correctAnswer`. -/
theorem text_correctAnswer_not_recorded_counterexample :
    exTextQuestion.type = QuestionType.TEXT
    ∧ exTextQuestion.options.find? (fun o => o.isCorrect) =
        some { id := "o1", text := "Paris", isCorrect := true }
    ∧ (scoreOne exTextQuestion
        { questionId := "q1", selectedOptionIds := some ["o1"], textAnswer := none }).snd
      = CorrectAnswer.str ""
    ∧ CorrectAnswer.str "" ≠ CorrectAnswer.str "Paris" := by
  refine ⟨rfl, rfl, rfl, ?_⟩
  decide

/-- Claim C9 amended: a TEXT per-answer result records the canonical
correct-answer text when the question has a correct-answer option and the
submission supplies nonempty text; otherwise `correctAnswer` is the empty
string. -/
theorem text_correctAnswer_recorded (q : Question) (a : SubmittedAnswer)
    (h : q.type = QuestionType.TEXT) :
    (∀ co txt, q.options.find? (fun o => o.isCorrect) = some co →
        a.textAnswer = some txt → txt ≠ "" →
        (scoreOne q a).snd = CorrectAnswer.str co.text)
    ∧ ((textTruthy a.textAnswer = false ∨ q.options.find? (fun o => o.isCorrect) = none) →
        (scoreOne q a).snd = CorrectAnswer.str "") := by
  rcases q with ⟨qid, qtext, qty, qopts⟩
  subst h
  constructor
  · intro co txt hfind hta htxt
    simp only [scoreOne, hfind, hta]
    rw [if_pos (by simpa using htxt)]
  · intro hbad
    rcases hbad with hbad | hfind
    · simp only [scoreOne]
      rcases hfind : qopts.find? (fun o => o.isCorrect) with _ | co
      · simp [hfind]
      · rcases hta : a.textAnswer with _ | txt
        · simp [hfind, hta]
        · rw [hta] at hbad
          simp only [textTruthy] at hbad
          rw [bne_eq_false_iff_eq] at hbad
          subst hbad
          simp [hfind, hta]
    · simp [scoreOne, hfind]

/-- Witness for the amended claim C9: a wrong but nonempty text answer
still gets the canonical text `Paris` recorded. -/
theorem text_correctAnswer_witness :
    (scoreOne exTextQuestion
      { questionId := "q1", selectedOptionIds := none, textAnswer := some "wrong" }).snd
      = CorrectAnswer.str "Paris" := by
  have h := text_correctAnswer_recorded exTextQuestion
    { questionId := "q1", selectedOptionIds := none, textAnswer := some "wrong" } rfl
  exact h.1 { id := "o1", text := "Paris", isCorrect := true } "wrong" rfl rfl (by decide)

/-- Claim C10: an answer whose payload kind does not match its question's
type (text for a choice question with empty/absent selection, or selected
identifiers for a TEXT question) raises no error and — provided the
question satisfies its own type invariant — is scored as an empty
submission and marked incorrect. -/
theorem mismatched_payload_marked_incorrect (q : Question) (a : SubmittedAnswer)
    (hinv : typeInvariant q)
    (hmis : ((q.type = QuestionType.SINGLE_CHOICE ∨ q.type = QuestionType.MULTIPLE_CHOICE)
              ∧ (∃ t, a.textAnswer = some t)
              ∧ (a.selectedOptionIds = none ∨ a.selectedOptionIds = some []))
          ∨ (q.type = QuestionType.TEXT ∧ (∃ ids, a.selectedOptionIds = some ids)
              ∧ a.textAnswer = none)) :
    (scoreOne q a).fst = false := by
  rcases q with ⟨qid, qtext, qty, qopts⟩
  rcases hmis with ⟨hty, ⟨t, hta⟩, hids⟩ | ⟨hty, ⟨ids, hids⟩, hta⟩
  · have hsel : selectedIdsOf a = [] := by
      rcases hids with hids | hids <;> simp [selectedIdsOf, hids]
    rcases hty with hty | hty
    · dsimp only at hty
      subst hty
      simp only [typeInvariant] at hinv
      simp [scoreOne, hsel]
    · dsimp only at hty
      subst hty
      simp only [typeInvariant] at hinv
      have hne : (qopts.filter (fun o => o.isCorrect)).map (fun o => o.id) ≠ [] := by
        intro hnil
        rw [List.map_eq_nil_iff] at hnil
        rw [hnil] at hinv
        simp at hinv
      simp [scoreOne, hsel]
      intro hlen
      exact absurd ((List.dedup_eq_nil _).mp (List.length_eq_zero.mp hlen.symm)) hne
  · dsimp only at hty
    subst hty
    simp [scoreOne, hta]

/-- Witness for claim C10: a text answer submitted against a well-formed
SINGLE_CHOICE question is marked incorrect without error. -/
theorem mismatched_payload_witness :
    (scoreOne exSingleQuestion
      { questionId := "s1", selectedOptionIds := none, textAnswer := some "X" }).fst = false :=
  mismatched_payload_marked_incorrect exSingleQuestion
    { questionId := "s1", selectedOptionIds := none, textAnswer := some "X" }
    (by simp [typeInvariant, exSingleQuestion])
    (Or.inl ⟨Or.inl rfl, ⟨"X", rfl⟩, Or.inl rfl⟩)

end Verto
